import Mathlib

/-!
Verification of the fiftyone v0.7.2 migration revision
(`fiftyone/migrations/revisions/v0_7_2.py`) and of the state controller of
the Flask server (`fiftyone/server/main.py`), over a shallow embedding of
the document store.

Documents are modelled as a first-order BSON-like value type.  A document
is a chain of `docCons` cells (an ordered key-value dictionary, as Python
dicts are insertion ordered); an array is a chain of `arrCons` cells.
Machine-level details (ObjectId internals, BSON binary layout) are
abstracted: identifiers are ordinary scalar values compared by structural
equality, which is how the driver compares `_id` filters.
-/

set_option autoImplicit false

/-- A BSON-like value: scalars, arrays and (ordered) documents. -/
inductive BVal : Type where
  | null : BVal
  | str : String → BVal
  | int : Int → BVal
  | arrNil : BVal
  | arrCons : BVal → BVal → BVal
  | docNil : BVal
  | docCons : String → BVal → BVal → BVal
deriving DecidableEq, Repr

/-- Exceptions raised by the Python code and by the pymongo driver. -/
inductive PyErr : Type where
  | keyError : PyErr          -- missing key on a dict
  | typeError : PyErr         -- indexing or iterating a non-container (including None)
  | attributeError : PyErr    -- calling a missing method such as append
  | invalidOperation : PyErr  -- pymongo bulk_write given zero operations
deriving DecidableEq, Repr

deriving instance DecidableEq for Except

/-- `d[k]` on a document: first value bound to key `k`, if any. -/
def dGet : BVal → String → Option BVal
  | .docCons k v r, key => if k = key then some v else dGet r key
  | _, _ => none

/-- `d[k] = v` on a document: replace in place, or append a new binding
(Python dicts keep insertion order). On a non-document value this is the
identity; every use site guards the shape. -/
def dSet : BVal → String → BVal → BVal
  | .docCons k v r, key, nv =>
      if k = key then .docCons k nv r else .docCons k v (dSet r key nv)
  | .docNil, key, nv => .docCons key nv .docNil
  | other, _, _ => other

/-- The effect of `update_many({}, set-unset of key)` on one document:
drop every binding of `key`. -/
def dRemove : BVal → String → BVal
  | .docCons k v r, key =>
      if k = key then dRemove r key else .docCons k v (dRemove r key)
  | other, _ => other

/-- The database: named collections of documents.  `db.datasets` is the
collection named `datasets`, like `db["datasets"]`. -/
structure DB : Type where
  colls : List (String × List BVal)
deriving DecidableEq, Repr

/-- Look a collection up by name in the association list. -/
def collsGet : List (String × List BVal) → String → Option (List BVal)
  | [], _ => none
  | c :: rest, n => if c.1 = n then some c.2 else collsGet rest n

/-- Replace a named collection in place, or add it. -/
def collsSet : List (String × List BVal) → String → List BVal → List (String × List BVal)
  | [], n, ds => [(n, ds)]
  | c :: rest, n, ds => if c.1 = n then (n, ds) :: rest else c :: collsSet rest n ds

/-- `db[name]`: a collection handle.  An unknown name denotes an empty
collection, as in MongoDB. -/
def getColl (db : DB) (name : String) : List BVal :=
  (collsGet db.colls name).getD []

/-- Write a whole collection back into the database. -/
def setColl (db : DB) (name : String) (docs : List BVal) : DB :=
  ⟨collsSet db.colls name docs⟩

/-- `coll.find_one({"name": n})`: the first document whose `name` field
equals the string `n`. -/
def find_one (coll : List BVal) (n : String) : Option BVal :=
  coll.find? (fun d => dGet d "name" == some (BVal.str n))

/-- `coll.replace_one({"name": n}, newDoc)`: replace the first matching
document; no match means no change. -/
def replace_one (n : String) (newDoc : BVal) : List BVal → List BVal
  | [] => []
  | d :: rest =>
      if dGet d "name" == some (BVal.str n) then newDoc :: rest
      else d :: replace_one n newDoc rest

/-- The loop of `up` over `dataset_dict["sample_fields"]`: keep every
field whose `name` is not `"frames"`.  Mirrors Python iteration: an empty
string or empty dict iterates zero times; any other non-list value ends in
a raised exception when the element is indexed. -/
def filterFields : BVal → Except PyErr BVal
  | .arrNil => .ok .arrNil
  | .arrCons f rest =>
      match dGet f "name" with
      | none => .error .keyError
      | some nm =>
          match filterFields rest with
          | .error e => .error e
          | .ok rest2 =>
              if nm = BVal.str "frames" then .ok rest2
              else .ok (.arrCons f rest2)
  | .str "" => .ok .arrNil
  | .docNil => .ok .arrNil
  | _ => .error .typeError

/-- `lst.append(v)` on a Python list; any non-list value has no `append`
method. -/
def arrAppend : BVal → BVal → Except PyErr BVal
  | .arrNil, v => .ok (.arrCons v .arrNil)
  | .arrCons h t, v =>
      match arrAppend t v with
      | .error e => .error e
      | .ok t2 => .ok (.arrCons h t2)
  | _, _ => .error .attributeError

/-- The literal `frames` field descriptor appended by `down`. -/
def framesField : BVal :=
  .docCons "name" (.str "frames")
    (.docCons "ftype" (.str "fiftyone.core.fields.EmbeddedDocumentField")
      (.docCons "subfield" .null
        (.docCons "embedded_doc_type" (.str "fiftyone.core.labels._Frames")
          .docNil)))

/-- `pm.UpdateOne({"_id": sampleId}, set of frames to frameD})`
with the braces spelled out at the use sites. -/
structure UpdateOne : Type where
  sampleId : BVal
  frameD : BVal
deriving DecidableEq, Repr

/-- The loop of `down` building the write list: one `UpdateOne` per
first-frame document, keyed by its `_sample_id`. -/
def buildWrites : List BVal → Except PyErr (List UpdateOne)
  | [] => .ok []
  | f :: rest =>
      match dGet f "_sample_id" with
      | none => .error .keyError
      | some sid =>
          match buildWrites rest with
          | .error e => .error e
          | .ok ops => .ok (⟨sid, .docCons "first_frame" f .docNil⟩ :: ops)

/-- Apply one `UpdateOne`: set `frames` on the first document whose `_id`
equals the filter value; no match updates nothing (no upsert). -/
def applyUpdateOne (op : UpdateOne) : List BVal → List BVal
  | [] => []
  | d :: rest =>
      if dGet d "_id" == some op.sampleId
      then dSet d "frames" op.frameD :: rest
      else d :: applyUpdateOne op rest

/-- `coll.bulk_write(ops)`.  pymongo refuses an empty operations list with
`InvalidOperation`; otherwise the ordered batch applies in submission
order. -/
def bulk_write (ops : List UpdateOne) (coll : List BVal) : Except PyErr (List BVal) :=
  match ops with
  | [] => .error .invalidOperation
  | _ => .ok (ops.foldl (fun c op => applyUpdateOne op c) coll)

/-- One step of the grouping aggregation: bump the count of a key. -/
def bumpCount : List (BVal × Nat) → BVal → List (BVal × Nat)
  | [], v => [(v, 1)]
  | (k, n) :: rest, v =>
      if k = v then (k, n + 1) :: rest else (k, n) :: bumpCount rest v

/-- The grouping aggregation at the end of `down`: per `_sample_id`, the
count of documents (a missing `_sample_id` groups under null). -/
def groupCounts (coll : List BVal) : List (BVal × Nat) :=
  coll.foldl (fun acc d => bumpCount acc ((dGet d "_sample_id").getD BVal.null)) []

/-- The forward transform `up` of revision v0.7.2, translated line by line
from the source.  The second component records a raised exception; the
first is the database at the moment the call returns or raises. -/
def up (db : DB) (dataset_name : String) : DB × Option PyErr :=
  match find_one (getColl db "datasets") dataset_name with
  | none => (db, some .typeError)
  | some dataset_dict =>
    match dGet dataset_dict "media_type" with
    | none => (db, some .keyError)
    | some mt =>
      if mt ≠ BVal.str "video" then (db, none)
      else
        match dGet dataset_dict "sample_fields" with
        | none => (db, some .keyError)
        | some sfv =>
          match filterFields sfv with
          | .error e => (db, some e)
          | .ok fields =>
            let dd2 := dSet dataset_dict "sample_fields" fields
            let db1 := setColl db "datasets"
              (replace_one dataset_name dd2 (getColl db "datasets"))
            match dGet dd2 "sample_collection_name" with
            | none => (db1, some .keyError)
            | some (BVal.str scn) =>
                let sample_coll := getColl db1 scn
                (setColl db1 scn (sample_coll.map (fun d => dRemove d "frames")), none)
            | some _ => (db1, some .typeError)

/-- The backward transform `down` of revision v0.7.2, translated line by
line from the source.  Note three facts of the source, reproduced
faithfully: the local `dataset_dict` has `framesField` appended to its
`sample_fields` but is never written back to the `datasets` collection;
both `frame_coll` and `sample_coll` are `db[sample_collection_name]`; and
the final grouping aggregation is computed and discarded. -/
def down (db : DB) (dataset_name : String) : DB × Option PyErr :=
  match find_one (getColl db "datasets") dataset_name with
  | none => (db, some .typeError)
  | some dataset_dict =>
    match dGet dataset_dict "media_type" with
    | none => (db, some .keyError)
    | some mt =>
      if mt ≠ BVal.str "video" then (db, none)
      else
        match dGet dataset_dict "sample_fields" with
        | none => (db, some .keyError)
        | some sfv =>
          match arrAppend sfv framesField with
          | .error e => (db, some e)
          | .ok sfv2 =>
            let _dataset_dict_local := dSet dataset_dict "sample_fields" sfv2
            match dGet dataset_dict "sample_collection_name" with
            | none => (db, some .keyError)
            | some (BVal.str scn) =>
                let frame_coll := getColl db scn
                let sample_coll := getColl db scn
                let first_frames :=
                  frame_coll.filter (fun d => dGet d "frame_number" == some (BVal.int 1))
                match buildWrites first_frames with
                | .error e => (db, some e)
                | .ok writes =>
                  match bulk_write writes sample_coll with
                  | .error e => (db, some e)
                  | .ok coll2 =>
                    let db1 := setColl db scn coll2
                    let _counts := groupCounts (getColl db1 scn)
                    (db1, none)
            | some _ => (db, some .typeError)

/-- The backward transform with the trailing grouping aggregation deleted,
used to state that the aggregation has no effect on persisted state. -/
def down_noagg (db : DB) (dataset_name : String) : DB × Option PyErr :=
  match find_one (getColl db "datasets") dataset_name with
  | none => (db, some .typeError)
  | some dataset_dict =>
    match dGet dataset_dict "media_type" with
    | none => (db, some .keyError)
    | some mt =>
      if mt ≠ BVal.str "video" then (db, none)
      else
        match dGet dataset_dict "sample_fields" with
        | none => (db, some .keyError)
        | some sfv =>
          match arrAppend sfv framesField with
          | .error e => (db, some e)
          | .ok sfv2 =>
            let _dataset_dict_local := dSet dataset_dict "sample_fields" sfv2
            match dGet dataset_dict "sample_collection_name" with
            | none => (db, some .keyError)
            | some (BVal.str scn) =>
                let frame_coll := getColl db scn
                let sample_coll := getColl db scn
                let first_frames :=
                  frame_coll.filter (fun d => dGet d "frame_number" == some (BVal.int 1))
                match buildWrites first_frames with
                | .error e => (db, some e)
                | .ok writes =>
                  match bulk_write writes sample_coll with
                  | .error e => (db, some e)
                  | .ok coll2 => (setColl db scn coll2, none)
            | some _ => (db, some .typeError)

/-!
The state controller of `fiftyone/server/main.py`.  The controller holds
the namespace-wide mutable `state` together with the `ds` and `it` handles
set by `on_update`.  The catalog of datasets is passed in read-only.
-/

/-- Modelled from the spec: `fod.Dataset(name)` (module
`fiftyone.core.dataset`, not part of the excerpt) resolves `dataset_name`
against the `datasets` catalog, read-only. -/
def resolveDataset (catalog : List BVal) (name : BVal) : Option BVal :=
  catalog.find? (fun d => dGet d "name" == some name)

/-- Modelled from the spec: `query.Query([]).iter_samples(ds)` (module
`query`, not part of the excerpt) builds an iterator over the resolved
dataset; pagination is unspecified, so the iterator only records its
source. -/
structure QueryIter : Type where
  source : Option BVal
deriving DecidableEq, Repr

/-- The mutable attributes of `StateController`. -/
structure Controller : Type where
  state : BVal
  it : Option QueryIter
  ds : Option (Option BVal)
deriving DecidableEq, Repr

/-- The class-level initial `state` dict of `StateController`. -/
def initialState : BVal :=
  .docCons "dataset_name" .null
    (.docCons "query" .null
      (.docCons "view_tag" .null
        (.docCons "samples" .arrNil .docNil)))

/-- The controller as registered on the namespace: initial state, `it` and
`ds` both None. -/
def initController : Controller := ⟨initialState, none, none⟩

/-- One socketio emit call, with the flags passed at the call site. -/
structure Emit : Type where
  event : String
  payload : BVal
  broadcast : Bool
  includeSelf : Bool
deriving DecidableEq, Repr

/-- Python truthiness of a value, as tested by `if state[key]:`. -/
def truthy : BVal → Bool
  | .null => false
  | .str s => s ≠ ""
  | .int n => n ≠ 0
  | .arrNil => false
  | .arrCons _ _ => true
  | .docNil => false
  | .docCons _ _ _ => true

/-- `StateController.on_update`, translated from the source: on a truthy
`dataset_name` it resolves the dataset, rebuilds the iterator, stores the
received state and emits it with `broadcast=True, include_self=False`;
otherwise it does nothing.  A state without the `dataset_name` key raises,
modelled as `none`. -/
def on_update (catalog : List BVal) (c : Controller) (state : BVal) :
    Option (Controller × List Emit) :=
  match dGet state "dataset_name" with
  | none => none
  | some v =>
    if truthy v then
      let ds := resolveDataset catalog v
      some ({ state := state, it := some ⟨ds⟩, ds := some ds },
            [⟨"update", state, true, false⟩])
    else
      some (c, [])

/-- `StateController.on_get_current_state`: returns the stored state. -/
def on_get_current_state (c : Controller) : BVal := c.state

/-- Modelled from the spec: delivery of one socketio emit to the connected
sessions of the namespace — a broadcast with `include_self=False` reaches
the other connected sessions, excluding the sender. -/
def recipients (sessions : List Nat) (sender : Nat) (e : Emit) : List Nat :=
  if e.broadcast then
    if e.includeSelf then sessions else sessions.filter (fun x => x ≠ sender)
  else [sender]


/-!
Basic lemmas about the document and collection operations.
-/

theorem dGet_dSet_ne (d : BVal) (k k2 : String) (v : BVal) (h : k2 ≠ k) :
    dGet (dSet d k v) k2 = dGet d k2 := by
  induction d with
  | docCons k3 v3 r ihv ihr =>
      by_cases hk : k3 = k
      · subst hk
        simp [dSet, dGet, Ne.symm h]
      · simp only [dSet, if_neg hk, dGet]
        by_cases hk2 : k3 = k2
        · simp [hk2]
        · simp [hk2, ihr]
  | docNil => simp [dSet, dGet, Ne.symm h]
  | _ => simp [dSet]

theorem dGet_dSet_self (d : BVal) (k : String) (v w : BVal)
    (h : dGet d k = some w) : dGet (dSet d k v) k = some v := by
  induction d with
  | docCons k3 v3 r ihv ihr =>
      by_cases hk : k3 = k
      · simp [dSet, hk, dGet]
      · simp only [dGet, if_neg hk] at h
        simp [dSet, if_neg hk, dGet, hk, ihr h]
  | _ => simp [dGet] at h

theorem dSet_same (d : BVal) (k : String) (v : BVal)
    (h : dGet d k = some v) : dSet d k v = d := by
  induction d with
  | docCons k3 v3 r ihv ihr =>
      by_cases hk : k3 = k
      · subst hk
        simp [dGet] at h
        simp [dSet, h]
      · simp only [dGet, if_neg hk] at h
        simp [dSet, if_neg hk, ihr h]
  | _ => simp [dGet] at h

theorem dGet_dRemove_self (d : BVal) (k : String) :
    dGet (dRemove d k) k = none := by
  induction d with
  | docCons k3 v3 r ihv ihr =>
      by_cases hk : k3 = k
      · simp [dRemove, hk, ihr]
      · simp [dRemove, hk, dGet, ihr]
  | _ => simp [dRemove, dGet]

theorem dGet_dRemove_ne (d : BVal) (k k2 : String) (h : k2 ≠ k) :
    dGet (dRemove d k) k2 = dGet d k2 := by
  induction d with
  | docCons k3 v3 r ihv ihr =>
      by_cases hk : k3 = k
      · subst hk
        simp [dRemove, dGet, Ne.symm h, ihr]
      · simp only [dRemove, if_neg hk, dGet]
        by_cases hk2 : k3 = k2
        · simp [hk2]
        · simp [hk2, ihr]
  | _ => simp [dRemove]

theorem dRemove_absent (d : BVal) (k : String) (h : dGet d k = none) :
    dRemove d k = d := by
  induction d with
  | docCons k3 v3 r ihv ihr =>
      by_cases hk : k3 = k
      · simp [dGet, hk] at h
      · simp only [dGet, if_neg hk] at h
        simp [dRemove, if_neg hk, ihr h]
  | _ => simp [dRemove]

theorem collsGet_collsSet_self (cs : List (String × List BVal)) (n : String)
    (l : List BVal) : collsGet (collsSet cs n l) n = some l := by
  induction cs with
  | nil => simp [collsSet, collsGet]
  | cons c rest ih =>
      by_cases hc : c.1 = n
      · simp [collsSet, hc, collsGet]
      · simp [collsSet, hc, collsGet, ih]

theorem collsGet_collsSet_ne (cs : List (String × List BVal)) (n n2 : String)
    (l : List BVal) (h : n2 ≠ n) :
    collsGet (collsSet cs n l) n2 = collsGet cs n2 := by
  induction cs with
  | nil => simp [collsSet, collsGet, Ne.symm h]
  | cons c rest ih =>
      obtain ⟨c1, c2⟩ := c
      by_cases hc : c1 = n
      · subst hc
        simp [collsSet, collsGet, Ne.symm h]
      · simp only [collsSet, if_neg hc, collsGet]
        by_cases hc2 : c1 = n2
        · simp [hc2]
        · simp [hc2, ih]

theorem collsSet_same (cs : List (String × List BVal)) (n : String)
    (l : List BVal) (h : collsGet cs n = some l) : collsSet cs n l = cs := by
  induction cs with
  | nil => simp [collsGet] at h
  | cons c rest ih =>
      obtain ⟨c1, c2⟩ := c
      by_cases hc : c1 = n
      · subst hc
        simp [collsGet] at h
        simp [collsSet, h]
      · simp only [collsGet, if_neg hc] at h
        simp [collsSet, if_neg hc, ih h]

theorem getColl_setColl_self (db : DB) (n : String) (l : List BVal) :
    getColl (setColl db n l) n = l := by
  simp [getColl, setColl, collsGet_collsSet_self]

theorem getColl_setColl_ne (db : DB) (n n2 : String) (l : List BVal)
    (h : n2 ≠ n) : getColl (setColl db n l) n2 = getColl db n2 := by
  simp [getColl, setColl, collsGet_collsSet_ne _ _ _ _ h]

theorem setColl_same (db : DB) (n : String) (l : List BVal)
    (h : collsGet db.colls n = some l) : setColl db n l = db := by
  cases db with
  | mk cs => simp [setColl, collsSet_same _ _ _ h]

/-!
Lemmas about `find_one`, `replace_one` and the field filter.
-/

theorem find?_cons_pos {A : Type} (p : A → Bool) (a : A) (l : List A)
    (h : p a = true) : List.find? p (a :: l) = some a := by
  simp [List.find?, h]

theorem find?_cons_neg {A : Type} (p : A → Bool) (a : A) (l : List A)
    (h : ¬ p a = true) : List.find? p (a :: l) = List.find? p l := by
  cases hpa : p a with
  | false => simp [List.find?, hpa]
  | true => exact absurd hpa h

theorem find_one_name (coll : List BVal) (n : String) (d : BVal)
    (h : find_one coll n = some d) : dGet d "name" = some (BVal.str n) := by
  have hp := List.find?_some h
  exact eq_of_beq hp

theorem find_one_replace_one (coll : List BVal) (n : String) (d d2 : BVal)
    (h1 : find_one coll n = some d)
    (h2 : dGet d2 "name" = some (BVal.str n)) :
    find_one (replace_one n d2 coll) n = some d2 := by
  induction coll with
  | nil => simp [find_one] at h1
  | cons hd tl ih =>
      simp only [find_one] at h1 ih ⊢
      by_cases hm : (dGet hd "name" == some (BVal.str n)) = true
      · simp only [replace_one, if_pos hm]
        rw [find?_cons_pos (fun d => dGet d "name" == some (BVal.str n)) d2 tl (by simp [h2])]
      · simp only [replace_one, if_neg hm]
        rw [find?_cons_neg (fun d => dGet d "name" == some (BVal.str n)) hd tl hm] at h1
        rw [find?_cons_neg (fun d => dGet d "name" == some (BVal.str n)) hd (replace_one n d2 tl) hm]
        exact ih h1

theorem replace_one_self (coll : List BVal) (n : String) (d : BVal)
    (h : find_one coll n = some d) : replace_one n d coll = coll := by
  induction coll with
  | nil => simp [find_one] at h
  | cons hd tl ih =>
      simp only [find_one] at h ih
      by_cases hm : (dGet hd "name" == some (BVal.str n)) = true
      · rw [find?_cons_pos (fun d => dGet d "name" == some (BVal.str n)) hd tl hm] at h
        simp only [Option.some.injEq] at h
        subst h
        simp [replace_one, hm]
      · rw [find?_cons_neg (fun d => dGet d "name" == some (BVal.str n)) hd tl hm] at h
        simp [replace_one, hm, ih h]

theorem find_one_map_dRemove_frames (coll : List BVal) (n : String) :
    find_one (coll.map (fun d => dRemove d "frames")) n =
      (find_one coll n).map (fun d => dRemove d "frames") := by
  induction coll with
  | nil => simp [find_one]
  | cons hd tl ih =>
      have hname : dGet (dRemove hd "frames") "name" = dGet hd "name" :=
        dGet_dRemove_ne hd "frames" "name" (by decide)
      simp only [find_one, List.map] at ih ⊢
      by_cases hm : (dGet hd "name" == some (BVal.str n)) = true
      · have hm2 : (dGet (dRemove hd "frames") "name" == some (BVal.str n)) = true := by
          rw [hname]; exact hm
        rw [find?_cons_pos (fun d => dGet d "name" == some (BVal.str n)) (dRemove hd "frames")
              (List.map (fun d => dRemove d "frames") tl) hm2,
            find?_cons_pos (fun d => dGet d "name" == some (BVal.str n)) hd tl hm]
        simp
      · have hm2 : ¬(dGet (dRemove hd "frames") "name" == some (BVal.str n)) = true := by
          rw [hname]; exact hm
        rw [find?_cons_neg (fun d => dGet d "name" == some (BVal.str n)) (dRemove hd "frames")
              (List.map (fun d => dRemove d "frames") tl) hm2,
            find?_cons_neg (fun d => dGet d "name" == some (BVal.str n)) hd tl hm]
        exact ih

/-- All elements of an array chain satisfy a boolean predicate. -/
def arrAllB (p : BVal → Bool) : BVal → Bool
  | .arrCons h t => p h && arrAllB p t
  | _ => true

/-- The value is a well-formed array chain. -/
def isArrB : BVal → Bool
  | .arrNil => true
  | .arrCons _ t => isArrB t
  | _ => false

/-- A field descriptor that carries a `name` different from `"frames"`. -/
def nameNotFrames (f : BVal) : Bool :=
  match dGet f "name" with
  | some nm => nm != BVal.str "frames"
  | none => false

theorem filterFields_no_frames (sfv out : BVal)
    (h : filterFields sfv = .ok out) :
    arrAllB (fun f => !(dGet f "name" == some (BVal.str "frames"))) out = true := by
  induction sfv generalizing out with
  | arrNil =>
      simp only [filterFields, Except.ok.injEq] at h
      subst h
      simp [arrAllB]
  | arrCons f rest ihf ihr =>
      cases hn : dGet f "name" with
      | none => simp [filterFields, hn] at h
      | some nm =>
          cases hr : filterFields rest with
          | error e => simp [filterFields, hn, hr] at h
          | ok rest2 =>
              by_cases hf : nm = BVal.str "frames"
              · have hout : rest2 = out := by
                  simp [filterFields, hn, hr, hf] at h
                  exact h
                subst hout
                exact ihr rest2 hr
              · have hout : BVal.arrCons f rest2 = out := by
                  simp [filterFields, hn, hr, hf] at h
                  exact h
                subst hout
                simp only [arrAllB, Bool.and_eq_true]
                exact ⟨by simp [hn, hf], ihr rest2 hr⟩
  | str s =>
      by_cases hs : s = ""
      · subst hs
        simp only [filterFields, Except.ok.injEq] at h
        subst h
        simp [arrAllB]
      · simp [filterFields, hs] at h
  | docNil =>
      simp only [filterFields, Except.ok.injEq] at h
      subst h
      simp [arrAllB]
  | _ => simp [filterFields] at h

theorem filterFields_id (sfv : BVal)
    (harr : isArrB sfv = true)
    (h : arrAllB nameNotFrames sfv = true) :
    filterFields sfv = .ok sfv := by
  induction sfv with
  | arrNil => simp [filterFields]
  | arrCons f rest ihf ihr =>
      simp only [arrAllB, Bool.and_eq_true] at h
      simp only [isArrB] at harr
      have hrest := ihr harr h.2
      have hf := h.1
      unfold nameNotFrames at hf
      cases hn : dGet f "name" with
      | none => rw [hn] at hf; exact absurd hf (by simp)
      | some nm =>
          rw [hn] at hf
          simp only [filterFields, hn, hrest]
          have : nm ≠ BVal.str "frames" := by
            intro he
            rw [he] at hf
            simp at hf
          rw [if_neg this]
  | _ => simp [isArrB] at harr

/-- Claim C8: the per-sample frame-count grouping aggregation at the end
of `down` has no effect on any persisted state: `down` and the transform
with the aggregation deleted return identical databases and outcomes on
every input. -/
theorem down_aggregation_dead (db : DB) (dataset_name : String) :
    down db dataset_name = down_noagg db dataset_name := rfl

/-!
Non-video datasets and missing descriptor attributes.
-/

/-- Claim C5: on a dataset whose `media_type` is not `video`, both `up`
and `down` return early, leaving the database entirely unchanged and
raising nothing. -/
theorem non_video_noop (db : DB) (n : String) (dd mt : BVal)
    (h1 : find_one (getColl db "datasets") n = some dd)
    (h2 : dGet dd "media_type" = some mt)
    (h3 : mt ≠ BVal.str "video") :
    up db n = (db, none) ∧ down db n = (db, none) := by
  constructor
  · simp [up, h1, h2, h3]
  · simp [down, h1, h2, h3]

/-- An image dataset used to witness the non-video no-op. -/
def imgDataset : BVal :=
  .docCons "name" (.str "pics")
    (.docCons "media_type" (.str "image")
      (.docCons "sample_collection_name" (.str "samples.pics")
        (.docCons "sample_fields" .arrNil .docNil)))

/-- A database holding the image dataset and one sample. -/
def imgDB : DB :=
  ⟨[("datasets", [imgDataset]),
    ("samples.pics", [.docCons "_id" (.int 1) .docNil])]⟩

/-- Witness for claim C5 at a concrete image dataset. -/
theorem non_video_noop_witness :
    find_one (getColl imgDB "datasets") "pics" = some imgDataset ∧
    dGet imgDataset "media_type" = some (BVal.str "image") ∧
    BVal.str "image" ≠ BVal.str "video" ∧
    (up imgDB "pics" = (imgDB, none) ∧ down imgDB "pics" = (imgDB, none)) :=
  ⟨by decide, by decide, by decide,
    non_video_noop imgDB "pics" imgDataset (BVal.str "image")
      (by decide) (by decide) (by decide)⟩

/-- A video dataset descriptor with a `frames` field but no
`sample_collection_name` attribute. -/
def c7doc : BVal :=
  .docCons "name" (.str "d7")
    (.docCons "media_type" (.str "video")
      (.docCons "sample_fields" (.arrCons framesField .arrNil) .docNil))

/-- A database holding only the descriptor above. -/
def c7db : DB := ⟨[("datasets", [c7doc])]⟩

/-- Claim C7 counterexample: on a descriptor lacking the expected
`sample_collection_name` attribute, `up` does raise, but only after the
updated descriptor has been persisted — the database at the failure is not
the initial one, refuting abort-before-any-mutation for that attribute. -/
theorem c7_counterexample :
    (up c7db "d7").2 = some PyErr.keyError ∧ (up c7db "d7").1 ≠ c7db := by
  decide

/-- Claim C7 as amended: when the descriptor lacks `media_type`, both `up`
and `down` raise a key error before performing any mutation, returning the
database unchanged. -/
theorem up_down_abort_missing_media_type (db : DB) (n : String) (dd : BVal)
    (h1 : find_one (getColl db "datasets") n = some dd)
    (h2 : dGet dd "media_type" = none) :
    up db n = (db, some PyErr.keyError) ∧
    down db n = (db, some PyErr.keyError) := by
  constructor
  · simp [up, h1, h2]
  · simp [down, h1, h2]

/-- A dataset descriptor with no `media_type` attribute. -/
def c7wDoc : BVal := .docCons "name" (.str "d7w") .docNil

/-- A database holding only the descriptor above. -/
def c7wDB : DB := ⟨[("datasets", [c7wDoc])]⟩

/-- Witness for the amended claim C7 at a concrete descriptor. -/
theorem up_down_abort_missing_media_type_witness :
    find_one (getColl c7wDB "datasets") "d7w" = some c7wDoc ∧
    dGet c7wDoc "media_type" = none ∧
    (up c7wDB "d7w" = (c7wDB, some PyErr.keyError) ∧
      down c7wDB "d7w" = (c7wDB, some PyErr.keyError)) :=
  ⟨by decide, by decide,
    up_down_abort_missing_media_type c7wDB "d7w" c7wDoc (by decide) (by decide)⟩

/-!
The state controller.
-/

/-- An update whose `dataset_name` is None (falsy), with a marker field
distinguishing it from the initial state. -/
def c9upd : BVal :=
  .docCons "dataset_name" .null (.docCons "view_tag" (.str "t") .docNil)

/-- Claim C9 counterexample: a received `update(state)` whose
`dataset_name` is None is neither rebroadcast (no emit is produced) nor
stored (`get_current_state` still returns the previous state, not the
received one). -/
theorem c9_counterexample :
    on_update [] initController c9upd = some (initController, []) ∧
    on_get_current_state initController ≠ c9upd := by
  decide

/-- Claim C9 as amended: when a session receives `update(state)` with a
truthy `dataset_name`, the state is emitted with `broadcast=True,
include_self=False` — reaching the other connected sessions, excluding the
sender — and becomes the value subsequently returned by
`get_current_state` for the namespace. -/
theorem on_update_truthy (catalog : List BVal) (c : Controller) (s v : BVal)
    (sessions : List Nat) (sender : Nat)
    (h1 : dGet s "dataset_name" = some v)
    (h2 : truthy v = true) :
    ∃ c2, on_update catalog c s = some (c2, [Emit.mk "update" s true false]) ∧
      on_get_current_state c2 = s ∧
      recipients sessions sender (Emit.mk "update" s true false) =
        sessions.filter (fun x => x ≠ sender) := by
  refine ⟨⟨s, some ⟨resolveDataset catalog v⟩, some (resolveDataset catalog v)⟩,
    ?_, rfl, ?_⟩
  · simp [on_update, h1, h2]
  · rfl

/-- A one-dataset catalog for the truthy-update witness. -/
def c9cat : List BVal :=
  [.docCons "name" (.str "cats") (.docCons "media_type" (.str "video") .docNil)]

/-- An update naming the dataset `cats`. -/
def c9upd2 : BVal :=
  .docCons "dataset_name" (.str "cats") (.docCons "view_tag" .null .docNil)

/-- Witness for the amended claim C9 at a concrete update and session set. -/
theorem on_update_truthy_witness :
    dGet c9upd2 "dataset_name" = some (BVal.str "cats") ∧
    truthy (BVal.str "cats") = true ∧
    (∃ c2, on_update c9cat initController c9upd2 =
        some (c2, [Emit.mk "update" c9upd2 true false]) ∧
      on_get_current_state c2 = c9upd2 ∧
      recipients [0, 1, 2] 1 (Emit.mk "update" c9upd2 true false) =
        [0, 1, 2].filter (fun x => x ≠ 1)) :=
  ⟨by decide, by decide,
    on_update_truthy c9cat initController c9upd2 (BVal.str "cats") [0, 1, 2] 1
      (by decide) (by decide)⟩

/-- Claim C10: a received `update(state)` whose `dataset_name` is falsy is
a complete no-op at the public interface: the controller (stored state,
dataset handle, iterator) is unchanged and no emit is produced. -/
theorem on_update_falsy_noop (catalog : List BVal) (c : Controller) (s v : BVal)
    (h1 : dGet s "dataset_name" = some v)
    (h2 : truthy v = false) :
    on_update catalog c s = some (c, []) := by
  simp [on_update, h1, h2]

/-- An update whose `dataset_name` is the empty string. -/
def c10upd : BVal := .docCons "dataset_name" (.str "") .docNil

/-- Witness for claim C10 at a concrete falsy update. -/
theorem on_update_falsy_noop_witness :
    dGet c10upd "dataset_name" = some (BVal.str "") ∧
    truthy (BVal.str "") = false ∧
    on_update c9cat initController c10upd = some (initController, []) :=
  ⟨by decide, by decide,
    on_update_falsy_noop c9cat initController c10upd (BVal.str "")
      (by decide) (by decide)⟩

/-!
The forward transform on video datasets.
-/

theorem map_dRemove_id (l : List BVal)
    (h : ∀ d ∈ l, dGet d "frames" = none) :
    l.map (fun d => dRemove d "frames") = l := by
  induction l with
  | nil => rfl
  | cons hd tl ih =>
      simp only [List.map, List.cons.injEq]
      constructor
      · exact dRemove_absent hd "frames" (h hd (by simp))
      · exact ih (fun d hd2 => h d (by simp [hd2]))

/-- Claim C3: on a video dataset, `up` raises nothing, removes every field
descriptor named `frames` from `sample_fields` and persists the updated
descriptor into the `datasets` collection, and removes the `frames` key
from every document of the sample collection via the collection-wide
unset. -/
theorem up_video_unsets_frames (db : DB) (n : String) (dd sfv fields : BVal)
    (scn : String)
    (h1 : find_one (getColl db "datasets") n = some dd)
    (h2 : dGet dd "media_type" = some (BVal.str "video"))
    (h3 : dGet dd "sample_fields" = some sfv)
    (h4 : filterFields sfv = .ok fields)
    (h5 : dGet dd "sample_collection_name" = some (BVal.str scn)) :
    (up db n).2 = none ∧
    (∃ dd2, find_one (getColl (up db n).1 "datasets") n = some dd2 ∧
      dGet dd2 "sample_fields" = some fields ∧
      arrAllB (fun f => !(dGet f "name" == some (BVal.str "frames"))) fields = true) ∧
    (∀ d ∈ getColl (up db n).1 scn, dGet d "frames" = none) := by
  have hscn2 : dGet (dSet dd "sample_fields" fields) "sample_collection_name" =
      some (BVal.str scn) := by
    rw [dGet_dSet_ne dd "sample_fields" "sample_collection_name" fields (by decide)]
    exact h5
  have hup : up db n =
      (setColl (setColl db "datasets"
          (replace_one n (dSet dd "sample_fields" fields) (getColl db "datasets")))
        scn
        (List.map (fun d => dRemove d "frames")
          (getColl (setColl db "datasets"
            (replace_one n (dSet dd "sample_fields" fields) (getColl db "datasets")))
            scn)), none) := by
    simp [up, h1, h2, h3, h4, hscn2]
  have hnamedd : dGet dd "name" = some (BVal.str n) := find_one_name _ _ _ h1
  have hnamedd2 : dGet (dSet dd "sample_fields" fields) "name" = some (BVal.str n) := by
    rw [dGet_dSet_ne dd "sample_fields" "name" fields (by decide)]
    exact hnamedd
  have hfind1 : find_one
      (getColl (setColl db "datasets"
        (replace_one n (dSet dd "sample_fields" fields) (getColl db "datasets")))
        "datasets") n = some (dSet dd "sample_fields" fields) := by
    rw [getColl_setColl_self]
    exact find_one_replace_one _ _ _ _ h1 hnamedd2
  have hsf2 : dGet (dSet dd "sample_fields" fields) "sample_fields" = some fields :=
    dGet_dSet_self dd "sample_fields" fields sfv h3
  have hall := filterFields_no_frames sfv fields h4
  refine ⟨by rw [hup], ?_, ?_⟩
  · rw [hup]
    by_cases hd : scn = "datasets"
    · subst hd
      refine ⟨dRemove (dSet dd "sample_fields" fields) "frames", ?_, ?_, hall⟩
      · rw [getColl_setColl_self, find_one_map_dRemove_frames, hfind1]
        rfl
      · rw [dGet_dRemove_ne _ "frames" "sample_fields" (by decide)]
        exact hsf2
    · refine ⟨dSet dd "sample_fields" fields, ?_, hsf2, hall⟩
      rw [getColl_setColl_ne _ _ _ _ (fun h2x => hd h2x.symm)]
      exact hfind1
  · rw [hup]
    intro d hdmem
    rw [getColl_setColl_self] at hdmem
    obtain ⟨x, _, hx2⟩ := List.mem_map.mp hdmem
    rw [← hx2]
    exact dGet_dRemove_self x "frames"

/-- A plain `filepath` field descriptor. -/
def filepathField : BVal :=
  .docCons "name" (.str "filepath")
    (.docCons "ftype" (.str "fiftyone.core.fields.StringField")
      (.docCons "subfield" .null
        (.docCons "embedded_doc_type" .null .docNil)))

/-- The `flowers` video dataset descriptor of the concrete scenario. -/
def flowersDoc : BVal :=
  .docCons "name" (.str "flowers")
    (.docCons "media_type" (.str "video")
      (.docCons "sample_collection_name" (.str "samples.flowers")
        (.docCons "frame_collection_name" (.str "frames.flowers")
          (.docCons "sample_fields"
            (.arrCons framesField (.arrCons filepathField .arrNil)) .docNil))))

/-- The one sample of `flowers`, still carrying a rich `frames`
subdocument. -/
def flowersSample : BVal :=
  .docCons "_id" (.int 1)
    (.docCons "filepath" (.str "v.mp4")
      (.docCons "frames"
        (.docCons "first_frame" (.docCons "note" (.str "old") .docNil) .docNil)
        .docNil))

/-- Frame documents 1 to 3 of the single `flowers` sample. -/
def flowersFrame1 : BVal :=
  .docCons "_id" (.int 11)
    (.docCons "_sample_id" (.int 1) (.docCons "frame_number" (.int 1) .docNil))

/-- Frame number 2. -/
def flowersFrame2 : BVal :=
  .docCons "_id" (.int 12)
    (.docCons "_sample_id" (.int 1) (.docCons "frame_number" (.int 2) .docNil))

/-- Frame number 3. -/
def flowersFrame3 : BVal :=
  .docCons "_id" (.int 13)
    (.docCons "_sample_id" (.int 1) (.docCons "frame_number" (.int 3) .docNil))

/-- The `flowers` database. -/
def flowersDB : DB :=
  ⟨[("datasets", [flowersDoc]),
    ("samples.flowers", [flowersSample]),
    ("frames.flowers", [flowersFrame1, flowersFrame2, flowersFrame3])]⟩

/-- Witness for claim C3 at the concrete `flowers` dataset. -/
theorem up_video_unsets_frames_witness :
    find_one (getColl flowersDB "datasets") "flowers" = some flowersDoc ∧
    dGet flowersDoc "media_type" = some (BVal.str "video") ∧
    dGet flowersDoc "sample_fields" =
      some (BVal.arrCons framesField (BVal.arrCons filepathField BVal.arrNil)) ∧
    filterFields (BVal.arrCons framesField (BVal.arrCons filepathField BVal.arrNil)) =
      .ok (BVal.arrCons filepathField BVal.arrNil) ∧
    dGet flowersDoc "sample_collection_name" = some (BVal.str "samples.flowers") ∧
    ((up flowersDB "flowers").2 = none ∧
      (∃ dd2, find_one (getColl (up flowersDB "flowers").1 "datasets") "flowers" =
          some dd2 ∧
        dGet dd2 "sample_fields" = some (BVal.arrCons filepathField BVal.arrNil) ∧
        arrAllB (fun f => !(dGet f "name" == some (BVal.str "frames")))
          (BVal.arrCons filepathField BVal.arrNil) = true) ∧
      (∀ d ∈ getColl (up flowersDB "flowers").1 "samples.flowers",
        dGet d "frames" = none)) :=
  ⟨by decide, by decide, by decide, by decide, by decide,
    up_video_unsets_frames flowersDB "flowers" flowersDoc
      (BVal.arrCons framesField (BVal.arrCons filepathField BVal.arrNil))
      (BVal.arrCons filepathField BVal.arrNil) "samples.flowers"
      (by decide) (by decide) (by decide) (by decide) (by decide)⟩

/-!
Idempotence of the forward transform.
-/

/-- Claim C6: `up` on a video dataset to which it has already been applied
— no field descriptor named `frames` in `sample_fields`, no `frames` key
on any document of the sample collection — returns the database unchanged
and raises nothing. -/
theorem up_idempotent (db : DB) (n : String) (dd sfv : BVal) (scn : String)
    (C : List BVal)
    (h1 : find_one (getColl db "datasets") n = some dd)
    (h2 : dGet dd "media_type" = some (BVal.str "video"))
    (h3 : dGet dd "sample_fields" = some sfv)
    (h4 : isArrB sfv = true)
    (h5 : arrAllB nameNotFrames sfv = true)
    (h6 : dGet dd "sample_collection_name" = some (BVal.str scn))
    (h7 : collsGet db.colls scn = some C)
    (h8 : ∀ d ∈ C, dGet d "frames" = none) :
    up db n = (db, none) := by
  have hff : filterFields sfv = .ok sfv := filterFields_id sfv h4 h5
  have hdd2 : dSet dd "sample_fields" sfv = dd := dSet_same dd "sample_fields" sfv h3
  have hscn2 : dGet (dSet dd "sample_fields" sfv) "sample_collection_name" =
      some (BVal.str scn) := by rw [hdd2]; exact h6
  have hDpres : collsGet db.colls "datasets" = some (getColl db "datasets") := by
    cases hc : collsGet db.colls "datasets" with
    | some l => simp [getColl, hc]
    | none =>
        exfalso
        rw [getColl, hc] at h1
        simp [find_one] at h1
  have hrep : replace_one n dd (getColl db "datasets") = getColl db "datasets" :=
    replace_one_self _ _ _ h1
  have hsetD : setColl db "datasets" (getColl db "datasets") = db :=
    setColl_same _ _ _ hDpres
  have hC : getColl db scn = C := by simp [getColl, h7]
  have hmap : C.map (fun d => dRemove d "frames") = C := map_dRemove_id C h8
  have hsetC : setColl db scn C = db := setColl_same _ _ _ h7
  simp only [up, h1, h2, h3, hff, hscn2, hdd2, hrep, hsetD]
  simp only [h6, hC, hmap, hsetC]
  simp

/-- An already-migrated video dataset descriptor: no `frames` field. -/
def appliedDoc : BVal :=
  .docCons "name" (.str "flowers2")
    (.docCons "media_type" (.str "video")
      (.docCons "sample_collection_name" (.str "samples.flowers2")
        (.docCons "sample_fields" (.arrCons filepathField .arrNil) .docNil)))

/-- A sample with no `frames` key. -/
def appliedSample : BVal :=
  .docCons "_id" (.int 1) (.docCons "filepath" (.str "w.mp4") .docNil)

/-- The already-migrated database. -/
def appliedDB : DB :=
  ⟨[("datasets", [appliedDoc]),
    ("samples.flowers2", [appliedSample])]⟩

/-- Witness for claim C6 at a concrete already-migrated dataset. -/
theorem up_idempotent_witness :
    find_one (getColl appliedDB "datasets") "flowers2" = some appliedDoc ∧
    dGet appliedDoc "media_type" = some (BVal.str "video") ∧
    dGet appliedDoc "sample_fields" =
      some (BVal.arrCons filepathField BVal.arrNil) ∧
    isArrB (BVal.arrCons filepathField BVal.arrNil) = true ∧
    arrAllB nameNotFrames (BVal.arrCons filepathField BVal.arrNil) = true ∧
    dGet appliedDoc "sample_collection_name" =
      some (BVal.str "samples.flowers2") ∧
    collsGet appliedDB.colls "samples.flowers2" = some [appliedSample] ∧
    (∀ d ∈ [appliedSample], dGet d "frames" = none) ∧
    up appliedDB "flowers2" = (appliedDB, none) :=
  ⟨by decide, by decide, by decide, by decide, by decide, by decide, by decide,
    by decide,
    up_idempotent appliedDB "flowers2" appliedDoc
      (BVal.arrCons filepathField BVal.arrNil) "samples.flowers2"
      [appliedSample] (by decide) (by decide) (by decide) (by decide)
      (by decide) (by decide) (by decide) (by decide)⟩

/-!
Concrete evaluations of the backward transform.
-/

/-- A video dataset with distinct sample and frame collections. -/
def c1doc : BVal :=
  .docCons "name" (.str "d1")
    (.docCons "media_type" (.str "video")
      (.docCons "sample_collection_name" (.str "samples.d1")
        (.docCons "frame_collection_name" (.str "frames.d1")
          (.docCons "sample_fields" (.arrCons filepathField .arrNil) .docNil))))

/-- The one sample of `d1`; it has no `frames` key. -/
def c1sample : BVal :=
  .docCons "_id" (.int 1) (.docCons "filepath" (.str "v.mp4") .docNil)

/-- The first-frame document of the sample, stored in the frame
collection. -/
def c1frame : BVal :=
  .docCons "_id" (.int 101)
    (.docCons "_sample_id" (.int 1) (.docCons "frame_number" (.int 1) .docNil))

/-- The `d1` database. -/
def c1db : DB :=
  ⟨[("datasets", [c1doc]),
    ("samples.d1", [c1sample]),
    ("frames.d1", [c1frame])]⟩

/-- Claim C1 evaluated at `d1`: the sample owns a frame document with
`frame_number` 1 in the frame collection, yet `down` — which reads first
frames from the sample collection and then submits the resulting empty
batch — raises and leaves the database unchanged, so no sample ever
receives a `frames.first_frame` subdocument. -/
theorem down_misses_frame_collection :
    dGet c1frame "frame_number" = some (BVal.int 1) ∧
    dGet c1frame "_sample_id" = dGet c1sample "_id" ∧
    down c1db "d1" = (c1db, some PyErr.invalidOperation) ∧
    (∀ d ∈ getColl (down c1db "d1").1 "samples.d1", dGet d "frames" = none) := by
  decide

/-- A video dataset for the round-trip evaluation. -/
def c2doc : BVal :=
  .docCons "name" (.str "roses")
    (.docCons "media_type" (.str "video")
      (.docCons "sample_collection_name" (.str "samples.roses")
        (.docCons "frame_collection_name" (.str "frames.roses")
          (.docCons "sample_fields"
            (.arrCons framesField (.arrCons filepathField .arrNil)) .docNil))))

/-- The one sample of `roses`, with a rich `frames` subdocument. -/
def c2sample : BVal :=
  .docCons "_id" (.int 2)
    (.docCons "filepath" (.str "r.mp4")
      (.docCons "frames"
        (.docCons "first_frame" (.docCons "note" (.str "rich") .docNil) .docNil)
        .docNil))

/-- The first-frame document of the `roses` sample. -/
def c2frame : BVal :=
  .docCons "_id" (.int 201)
    (.docCons "_sample_id" (.int 2) (.docCons "frame_number" (.int 1) .docNil))

/-- The `roses` database before the round trip. -/
def c2db : DB :=
  ⟨[("datasets", [c2doc]),
    ("samples.roses", [c2sample]),
    ("frames.roses", [c2frame])]⟩

/-- The database after `up` on `roses`. -/
def c2db1 : DB := (up c2db "roses").1

/-- The `roses` descriptor with the `frames` field removed, as persisted
by `up`. -/
def c2docAfter : BVal :=
  .docCons "name" (.str "roses")
    (.docCons "media_type" (.str "video")
      (.docCons "sample_collection_name" (.str "samples.roses")
        (.docCons "frame_collection_name" (.str "frames.roses")
          (.docCons "sample_fields" (.arrCons filepathField .arrNil) .docNil))))

/-- Claim C2 evaluated at `roses`: `up` succeeds, the subsequent `down`
raises on its empty batch and — having mutated only its local copy of the
descriptor — persists nothing, so the `sample_fields` stored after the
round trip is still the one without any `frames` descriptor. -/
theorem up_down_loses_frames_descriptor :
    (up c2db "roses").2 = none ∧
    down c2db1 "roses" = (c2db1, some PyErr.invalidOperation) ∧
    find_one (getColl (down c2db1 "roses").1 "datasets") "roses" =
      some c2docAfter ∧
    dGet c2docAfter "sample_fields" =
      some (BVal.arrCons filepathField BVal.arrNil) ∧
    arrAllB (fun f => !(dGet f "name" == some (BVal.str "frames")))
      (BVal.arrCons filepathField BVal.arrNil) = true := by
  decide

/-- A video dataset whose first-frame query yields no documents. -/
def c4doc : BVal :=
  .docCons "name" (.str "d4")
    (.docCons "media_type" (.str "video")
      (.docCons "sample_collection_name" (.str "samples.d4")
        (.docCons "sample_fields" .arrNil .docNil)))

/-- The one sample of `d4`. -/
def c4sample : BVal := .docCons "_id" (.int 4) .docNil

/-- The `d4` database. -/
def c4db : DB :=
  ⟨[("datasets", [c4doc]),
    ("samples.d4", [c4sample])]⟩

/-- Claim C4 evaluated at `d4`: the first-frame query yields no documents,
so the write list is empty, and the bulk submission of zero operations
raises `InvalidOperation` instead of succeeding as a no-op. -/
theorem down_empty_bulk_write_raises :
    (getColl c4db "samples.d4").filter
      (fun d => dGet d "frame_number" == some (BVal.int 1)) = [] ∧
    down c4db "d4" = (c4db, some PyErr.invalidOperation) := by
  decide
